import Mathlib

/-!
Verification of the `socrates` database access pipeline against its
natural-language specification.

The TypeScript sources under `src/database/` are shallowly embedded below:

* `CircuitBreaker` models `DatabaseCircuitBreaker.ts`: the three-state
  breaker, its retry loop and its failure/success accounting.  JS
  `Date.now()` timestamps become explicit `Int` parameters (every call is
  modelled at one instant), JS numbers used as millisecond quantities become
  `Int`/`ℚ`, and the wrapped asynchronous operation becomes a function from
  the attempt index to an optional result (`none` models a rejected
  promise).
* `SessionQueryEngine` models `SessionQueryEngine.ts`: the raw key lookup
  (the sqlite row is an `Option String` input and `JSON.parse` an explicit
  function parameter, since both are external to the repository) and the
  in-memory pagination of `getInteractiveSessions`.
* `SessionDataParser` models the parser embedded in
  `PlatformPathResolver.ts`: dynamically-typed JSON values become the
  `JsValue` inductive with JS truthiness and `typeof` tests; `Date.parse`
  and `Date.prototype.toISOString` are explicit function parameters.
  Warning accumulation and wall-clock processing times are not modelled:
  they never influence the parsed data or the success flags.
* `DatabaseReader` models `DatabaseReader.ts` composing the above.
* `WorkspaceResolver` models `WorkspaceResolver.ts`: `path.resolve` for
  absolute POSIX paths, ASCII `toLowerCase`, and the full MD5 digest used
  by `generateWorkspaceId` (the `crypto` library call is reimplemented
  bit-for-bit over `Nat` arithmetic mod 2^32).
-/

namespace Socrates

namespace CircuitBreaker

/-- Breaker states, from `CircuitState` in `DatabaseCircuitBreaker.ts`. -/
inductive CircuitState where
  | CLOSED
  | OPEN
  | HALF_OPEN
  deriving DecidableEq, Repr

/-- Configuration record, from `CircuitBreakerConfig`.  Durations are in
milliseconds (`Int`), the base retry delay is a `ℚ` because the jitter
computation is fractional. -/
structure CircuitBreakerConfig where
  failureThreshold : Nat
  resetTimeout : Int
  monitoringWindow : Int
  successThreshold : Nat
  maxRetries : Nat
  retryDelay : ℚ
  deriving DecidableEq, Repr

/-- The `DEFAULT_CONFIG` of `DatabaseCircuitBreaker`. -/
def defaultConfig : CircuitBreakerConfig :=
  { failureThreshold := 5
    resetTimeout := 60000
    monitoringWindow := 300000
    successThreshold := 3
    maxRetries := 3
    retryDelay := 1000 }

/-- Mutable fields of `DatabaseCircuitBreaker`. -/
structure BreakerState where
  state : CircuitState
  failureCount : Nat
  successCount : Nat
  lastFailureTime : Option Int
  lastSuccessTime : Option Int
  totalCalls : Nat
  totalFailures : Nat
  totalSuccesses : Nat
  lastStateChange : Int
  consecutiveSuccesses : Nat
  deriving DecidableEq, Repr

/-- Field initialisers of a freshly constructed `DatabaseCircuitBreaker`
(`startTime`/`lastStateChange` are `Date.now()` at construction). -/
def initialState (now : Int) : BreakerState :=
  { state := CircuitState.CLOSED
    failureCount := 0
    successCount := 0
    lastFailureTime := none
    lastSuccessTime := none
    totalCalls := 0
    totalFailures := 0
    totalSuccesses := 0
    lastStateChange := now
    consecutiveSuccesses := 0 }

/-- `setState`: change the state and stamp the transition time, a no-op when
the state is unchanged. -/
def setState (s : BreakerState) (newState : CircuitState) (now : Int) : BreakerState :=
  if s.state = newState then s
  else { s with state := newState, lastStateChange := now }

/-- `cleanupOldFailures`: reset the failure counter once the last failure
falls outside the monitoring window. -/
def cleanupOldFailures (cfg : CircuitBreakerConfig) (s : BreakerState) (now : Int) :
    BreakerState :=
  match s.lastFailureTime with
  | none => s
  | some f => if f < now - cfg.monitoringWindow then { s with failureCount := 0 } else s

/-- `onSuccess`: bump the success counters, clean up old failures, and close
the circuit from HALF_OPEN once enough consecutive successes accumulated. -/
def onSuccess (cfg : CircuitBreakerConfig) (s : BreakerState) (now : Int) : BreakerState :=
  let s1 := { s with
    successCount := s.successCount + 1
    totalSuccesses := s.totalSuccesses + 1
    consecutiveSuccesses := s.consecutiveSuccesses + 1
    lastSuccessTime := some now }
  let s2 := cleanupOldFailures cfg s1 now
  if s2.state = CircuitState.HALF_OPEN then
    if cfg.successThreshold ≤ s2.consecutiveSuccesses then
      let s3 := setState s2 CircuitState.CLOSED now
      { s3 with failureCount := 0, consecutiveSuccesses := 0 }
    else s2
  else if s2.state = CircuitState.CLOSED then { s2 with failureCount := 0 }
  else s2

/-- `onFailure`: bump the failure counters, clean up old failures, and open
the circuit from CLOSED or HALF_OPEN once the failure threshold is reached. -/
def onFailure (cfg : CircuitBreakerConfig) (s : BreakerState) (now : Int) : BreakerState :=
  let s1 := { s with
    failureCount := s.failureCount + 1
    totalFailures := s.totalFailures + 1
    consecutiveSuccesses := 0
    lastFailureTime := some now }
  let s2 := cleanupOldFailures cfg s1 now
  if (s2.state = CircuitState.CLOSED ∨ s2.state = CircuitState.HALF_OPEN)
      ∧ cfg.failureThreshold ≤ s2.failureCount then
    setState s2 CircuitState.OPEN now
  else s2

/-- `shouldAttemptReset`: true when there was no recorded failure or the
reset timeout has elapsed since the last one. -/
def shouldAttemptReset (cfg : CircuitBreakerConfig) (s : BreakerState) (now : Int) : Bool :=
  match s.lastFailureTime with
  | none => true
  | some f => decide (cfg.resetTimeout ≤ now - f)

/-- The retry loop of `executeWithRetries`: try attempts `start`,
`start+1`, ... while `fuel` remains, returning the first attempt index whose
operation resolves together with its value. -/
def runAttempts {T : Type} (op : Nat → Option T) : Nat → Nat → Option (Nat × T)
  | _, 0 => none
  | start, fuel + 1 =>
    match op start with
    | some v => some (start, v)
    | none => runAttempts op (start + 1) fuel

/-- Result of one `execute` call: the source's `CircuitBreakerResult` fields
plus the post-call breaker state and the number of times the wrapped
operation was invoked. -/
structure ExecResult (T : Type) where
  success : Bool
  data : Option T
  error : Option String
  newState : BreakerState
  invocations : Nat
  retryAttempt : Option Nat
  deriving Repr

/-- `executeWithRetries`: run the operation for up to `maxRetries + 1`
attempts; report exactly one success or exactly one (final) failure to the
breaker accounting. -/
def executeWithRetries {T : Type} (cfg : CircuitBreakerConfig) (s : BreakerState)
    (now : Int) (op : Nat → Option T) : ExecResult T :=
  match runAttempts op 0 (cfg.maxRetries + 1) with
  | some (a, v) =>
    { success := true
      data := some v
      error := none
      newState := onSuccess cfg s now
      invocations := a + 1
      retryAttempt := some a }
  | none =>
    { success := false
      data := none
      error := some "operation failed after all retry attempts"
      newState := onFailure cfg s now
      invocations := cfg.maxRetries + 1
      retryAttempt := some cfg.maxRetries }

/-- `execute`: count the call, reject immediately while OPEN unless the
reset timeout elapsed (in which case move to HALF_OPEN first), then run the
retry loop. -/
def execute {T : Type} (cfg : CircuitBreakerConfig) (s : BreakerState) (now : Int)
    (op : Nat → Option T) : ExecResult T :=
  let s0 := { s with totalCalls := s.totalCalls + 1 }
  if s0.state = CircuitState.OPEN then
    if shouldAttemptReset cfg s0 now then
      executeWithRetries cfg (setState s0 CircuitState.HALF_OPEN now) now op
    else
      { success := false
        data := none
        error := some "Circuit breaker is OPEN. Blocking operation."
        newState := s0
        invocations := 0
        retryAttempt := none }
  else executeWithRetries cfg s0 now op

/-- `calculateRetryDelay`: exponential backoff with up to 10% jitter, capped
at 30 seconds.  `rand` stands for the `Math.random()` draw in `[0, 1)`. -/
def calculateRetryDelay (retryDelay : ℚ) (attempt : Nat) (rand : ℚ) : ℚ :=
  let exponentialDelay := retryDelay * 2 ^ attempt
  let jitter := rand * (1 / 10) * exponentialDelay
  min (exponentialDelay + jitter) 30000

/-- States reachable from a fresh breaker by any sequence of `execute`
calls (the operation-outcome histories of the claims). -/
inductive Reachable (cfg : CircuitBreakerConfig) : BreakerState → Prop where
  | init (t0 : Int) : Reachable cfg (initialState t0)
  | step (s : BreakerState) (now : Int) (op : Nat → Option Unit) :
      Reachable cfg s → Reachable cfg (execute cfg s now op).newState

lemma runAttempts_none_iff {T : Type} (op : Nat → Option T) (fuel : Nat) :
    ∀ start : Nat, runAttempts op start fuel = none ↔ ∀ i, i < fuel → op (start + i) = none := by
  induction fuel with
  | zero => intro start; simp [runAttempts]
  | succ n ih =>
    intro start
    simp only [runAttempts]
    cases h : op start with
    | some v =>
      constructor
      · intro hc; simp at hc
      · intro hall
        have h0 := hall 0 (by omega)
        rw [Nat.add_zero, h] at h0
        cases h0
    | none =>
      rw [ih (start + 1)]
      constructor
      · intro hall i hi
        cases i with
        | zero => simpa using h
        | succ j =>
          have := hall j (by omega)
          have e : start + 1 + j = start + (j + 1) := by omega
          rwa [e] at this
      · intro hall i hi
        have := hall (i + 1) (by omega)
        have e : start + (i + 1) = start + 1 + i := by omega
        rwa [e] at this

lemma runAttempts_some {T : Type} (op : Nat → Option T) (fuel : Nat) :
    ∀ start a v, runAttempts op start fuel = some (a, v) →
      op a = some v ∧ start ≤ a ∧ a < start + fuel := by
  induction fuel with
  | zero => intro start a v h; simp [runAttempts] at h
  | succ n ih =>
    intro start a v h
    simp only [runAttempts] at h
    cases hop : op start with
    | some w =>
      rw [hop] at h
      simp only [Option.some.injEq, Prod.mk.injEq] at h
      obtain ⟨rfl, rfl⟩ := h
      exact ⟨hop, le_rfl, by omega⟩
    | none =>
      rw [hop] at h
      obtain ⟨h1, h2, h3⟩ := ih (start + 1) a v h
      exact ⟨h1, by omega, by omega⟩

lemma onFailure_counts (cfg : CircuitBreakerConfig) (s : BreakerState) (now : Int)
    (hw : 0 ≤ cfg.monitoringWindow) :
    (onFailure cfg s now).failureCount = s.failureCount + 1
    ∧ (onFailure cfg s now).totalFailures = s.totalFailures + 1
    ∧ (onFailure cfg s now).totalSuccesses = s.totalSuccesses := by
  unfold onFailure cleanupOldFailures setState
  have hno : ¬ (now < now - cfg.monitoringWindow) := by omega
  dsimp only
  simp only [hno, if_false]
  repeat' split
  all_goals simp_all

lemma onSuccess_counts (cfg : CircuitBreakerConfig) (s : BreakerState) (now : Int) :
    (onSuccess cfg s now).totalSuccesses = s.totalSuccesses + 1
    ∧ (onSuccess cfg s now).totalFailures = s.totalFailures := by
  unfold onSuccess cleanupOldFailures setState
  dsimp only
  repeat' split
  all_goals simp_all

/-- Claim C3: within one allowed `execute` invocation the wrapped operation
runs at most `maxRetries + 1` times; when every attempt fails exactly one
failure is reported to the breaker accounting (`failureCount` and
`totalFailures` grow by exactly one), intermediate retried failures are not
counted individually, and a success on any attempt reports exactly one
success. -/
theorem executeWithRetries_accounting {T : Type} (cfg : CircuitBreakerConfig)
    (s : BreakerState) (now : Int) (op : Nat → Option T)
    (hw : 0 ≤ cfg.monitoringWindow) :
    (executeWithRetries cfg s now op).invocations ≤ cfg.maxRetries + 1
    ∧ ((∀ a, a ≤ cfg.maxRetries → op a = none) →
        (executeWithRetries cfg s now op).success = false
        ∧ (executeWithRetries cfg s now op).newState.failureCount = s.failureCount + 1
        ∧ (executeWithRetries cfg s now op).newState.totalFailures = s.totalFailures + 1
        ∧ (executeWithRetries cfg s now op).newState.totalSuccesses = s.totalSuccesses)
    ∧ ((∃ a, a ≤ cfg.maxRetries ∧ op a ≠ none) →
        (executeWithRetries cfg s now op).success = true
        ∧ (executeWithRetries cfg s now op).newState.totalSuccesses = s.totalSuccesses + 1
        ∧ (executeWithRetries cfg s now op).newState.totalFailures = s.totalFailures) := by
  unfold executeWithRetries
  cases h : runAttempts op 0 (cfg.maxRetries + 1) with
  | some p =>
    obtain ⟨a, v⟩ := p
    obtain ⟨hop, -, hlt⟩ := runAttempts_some op (cfg.maxRetries + 1) 0 a v h
    refine ⟨by dsimp only; omega, ?_, ?_⟩
    · intro hall
      exact absurd hop (by simp [hall a (by omega)])
    · intro _
      exact ⟨rfl, (onSuccess_counts cfg s now).1, (onSuccess_counts cfg s now).2⟩
  | none =>
    refine ⟨le_rfl, ?_, ?_⟩
    · intro _
      obtain ⟨h1, h2, h3⟩ := onFailure_counts cfg s now hw
      exact ⟨rfl, h1, h2, h3⟩
    · rintro ⟨a, ha, hne⟩
      have := (runAttempts_none_iff op (cfg.maxRetries + 1) 0).mp h a (by omega)
      simp only [Nat.zero_add] at this
      exact absurd this hne

/-- Claim C3 witness at a concrete always-failing operation. -/
theorem executeWithRetries_accounting_witness :
    (executeWithRetries defaultConfig (initialState 0) 0
        (fun _ => (none : Option Unit))).newState.totalFailures
      = (initialState 0).totalFailures + 1 :=
  ((executeWithRetries_accounting defaultConfig (initialState 0) 0 (fun _ => none)
      (by decide)).2.1 (fun _ _ => rfl)).2.2.1

/-- Claim C5: the retry delay equals
`min(retryDelay * 2 ^ attempt * (1 + r), 30000)` where `r = rand / 10` is
the jitter fraction in `[0, 0.1)`; it is monotone non-decreasing in the
attempt number (even across independent jitter draws) up to the 30 s cap,
and always at least the configured base delay when that is at most 30000. -/
theorem calculateRetryDelay_spec (base : ℚ) (a : Nat) (rand : ℚ)
    (hb0 : 0 ≤ base) (hb : base ≤ 30000) (hr0 : 0 ≤ rand) (hr1 : rand < 1) :
    calculateRetryDelay base a rand = min (base * 2 ^ a * (1 + rand * (1 / 10))) 30000
    ∧ (∀ rand2 : ℚ, 0 ≤ rand2 → rand2 < 1 →
        calculateRetryDelay base a rand ≤ calculateRetryDelay base (a + 1) rand2)
    ∧ base ≤ calculateRetryDelay base a rand := by
  have hpow : (0 : ℚ) ≤ 2 ^ a := by positivity
  have hpow1 : (1 : ℚ) ≤ 2 ^ a := one_le_pow₀ (by norm_num)
  refine ⟨?_, ?_, ?_⟩
  · unfold calculateRetryDelay
    ring_nf
  · intro r2 h20 h21
    unfold calculateRetryDelay
    apply min_le_min _ le_rfl
    have hc : (0 : ℚ) ≤ base * 2 ^ a := mul_nonneg hb0 hpow
    rw [pow_succ]
    nlinarith [mul_nonneg hc h20, mul_nonneg hc hr0]
  · unfold calculateRetryDelay
    apply le_min _ hb
    have h1 : base ≤ base * 2 ^ a := le_mul_of_one_le_right hb0 hpow1
    nlinarith [mul_nonneg (mul_nonneg hr0 (by norm_num : (0 : ℚ) ≤ 1 / 10))
      (mul_nonneg hb0 hpow)]

/-- Claim C5 witness at the default base delay. -/
theorem calculateRetryDelay_spec_witness :
    (1000 : ℚ) ≤ calculateRetryDelay 1000 0 (1 / 2) :=
  (calculateRetryDelay_spec 1000 0 (1 / 2) (by norm_num) (by norm_num) (by norm_num)
    (by norm_num)).2.2

lemma onSuccess_closed (cfg : CircuitBreakerConfig) (b : BreakerState) (now : Int)
    (hb : b.state = CircuitState.CLOSED) :
    (onSuccess cfg b now).state = CircuitState.CLOSED := by
  unfold onSuccess cleanupOldFailures setState
  dsimp only
  repeat' split
  all_goals simp_all

lemma onSuccess_closed_count (cfg : CircuitBreakerConfig) (b : BreakerState) (now : Int)
    (hc : (onSuccess cfg b now).state = CircuitState.CLOSED) :
    (onSuccess cfg b now).failureCount = 0 := by
  unfold onSuccess cleanupOldFailures setState at hc ⊢
  dsimp only at hc ⊢
  repeat' split at hc
  all_goals repeat' split
  all_goals simp_all

lemma onSuccess_halfopen_closed_iff (cfg : CircuitBreakerConfig) (b : BreakerState)
    (now : Int) (hb : b.state = CircuitState.HALF_OPEN) :
    ((onSuccess cfg b now).state = CircuitState.CLOSED ↔
      cfg.successThreshold ≤ b.consecutiveSuccesses + 1) := by
  unfold onSuccess cleanupOldFailures setState
  dsimp only
  repeat' split
  all_goals simp_all

lemma onFailure_closed_of (cfg : CircuitBreakerConfig) (b : BreakerState) (now : Int)
    (hc : (onFailure cfg b now).state = CircuitState.CLOSED) :
    b.state = CircuitState.CLOSED := by
  unfold onFailure cleanupOldFailures setState at hc
  dsimp only at hc
  repeat' split at hc
  all_goals simp_all

lemma onFailure_closed_count (cfg : CircuitBreakerConfig) (b : BreakerState) (now : Int)
    (hc : (onFailure cfg b now).state = CircuitState.CLOSED) :
    (onFailure cfg b now).failureCount < cfg.failureThreshold := by
  unfold onFailure cleanupOldFailures setState at hc ⊢
  dsimp only at hc ⊢
  repeat' split
  all_goals simp_all
  rename_i hcond
  rw [if_neg (by tauto)] at hc
  dsimp only at hc
  have hne := hcond (Or.inl hc)
  omega

lemma onFailure_open_iff (cfg : CircuitBreakerConfig) (b : BreakerState) (now : Int)
    (hw : 0 ≤ cfg.monitoringWindow)
    (hb : b.state = CircuitState.CLOSED ∨ b.state = CircuitState.HALF_OPEN) :
    ((onFailure cfg b now).state = CircuitState.OPEN ↔
      cfg.failureThreshold ≤ b.failureCount + 1) := by
  have hno : ¬ (now < now - cfg.monitoringWindow) := by omega
  unfold onFailure cleanupOldFailures setState
  dsimp only
  simp only [hno, if_false]
  rcases hb with hb | hb <;> (repeat' split) <;> simp_all

lemma execute_not_open {T : Type} (cfg : CircuitBreakerConfig) (s : BreakerState)
    (now : Int) (op : Nat → Option T) (hs : ¬ s.state = CircuitState.OPEN) :
    execute cfg s now op =
      executeWithRetries cfg { s with totalCalls := s.totalCalls + 1 } now op := by
  unfold execute
  dsimp only
  rw [if_neg hs]

lemma execute_open_gate {T : Type} (cfg : CircuitBreakerConfig) (s : BreakerState)
    (now : Int) (op : Nat → Option T) (hs : s.state = CircuitState.OPEN)
    (hr : shouldAttemptReset cfg s now = true) :
    execute cfg s now op =
      executeWithRetries cfg
        (setState { s with totalCalls := s.totalCalls + 1 } CircuitState.HALF_OPEN now)
        now op := by
  have hr0 : shouldAttemptReset cfg { s with totalCalls := s.totalCalls + 1 } now = true := hr
  unfold execute
  dsimp only
  rw [if_pos hs, if_pos hr0]

lemma execute_open_reject {T : Type} (cfg : CircuitBreakerConfig) (s : BreakerState)
    (now : Int) (op : Nat → Option T) (hs : s.state = CircuitState.OPEN)
    (hr : shouldAttemptReset cfg s now = false) :
    execute cfg s now op =
      { success := false
        data := none
        error := some "Circuit breaker is OPEN. Blocking operation."
        newState := { s with totalCalls := s.totalCalls + 1 }
        invocations := 0
        retryAttempt := none } := by
  have hr0 : shouldAttemptReset cfg { s with totalCalls := s.totalCalls + 1 } now = false := hr
  unfold execute
  dsimp only
  rw [if_pos hs, hr0]
  simp

lemma shouldAttemptReset_some (cfg : CircuitBreakerConfig) (s : BreakerState) (now : Int)
    (f : Int) (hf : s.lastFailureTime = some f) :
    shouldAttemptReset cfg s now = decide (cfg.resetTimeout ≤ now - f) := by
  unfold shouldAttemptReset
  rw [hf]

lemma executeWithRetries_cases {T : Type} (cfg : CircuitBreakerConfig) (s : BreakerState)
    (now : Int) (op : Nat → Option T) :
    ((∃ a, a ≤ cfg.maxRetries ∧ op a ≠ none)
      ∧ (executeWithRetries cfg s now op).newState = onSuccess cfg s now
      ∧ (executeWithRetries cfg s now op).success = true)
    ∨ ((∀ a, a ≤ cfg.maxRetries → op a = none)
      ∧ (executeWithRetries cfg s now op).newState = onFailure cfg s now
      ∧ (executeWithRetries cfg s now op).success = false) := by
  unfold executeWithRetries
  cases h : runAttempts op 0 (cfg.maxRetries + 1) with
  | some p =>
    obtain ⟨a, v⟩ := p
    obtain ⟨hop, -, hlt⟩ := runAttempts_some op (cfg.maxRetries + 1) 0 a v h
    exact Or.inl ⟨⟨a, by omega, by simp [hop]⟩, rfl, rfl⟩
  | none =>
    refine Or.inr ⟨?_, rfl, rfl⟩
    intro a ha
    have := (runAttempts_none_iff op (cfg.maxRetries + 1) 0).mp h a (by omega)
    simpa using this

lemma reachable_closed_count (cfg : CircuitBreakerConfig) (s : BreakerState)
    (h : Reachable cfg s) (h1 : 1 ≤ cfg.failureThreshold) :
    s.state = CircuitState.CLOSED → s.failureCount < cfg.failureThreshold := by
  induction h with
  | init t0 => intro _; simpa [initialState] using h1
  | step s now op hs ih =>
    intro hcl
    by_cases ho : s.state = CircuitState.OPEN
    · by_cases hr : shouldAttemptReset cfg s now = true
      · rw [execute_open_gate cfg s now op ho hr] at hcl ⊢
        rcases executeWithRetries_cases cfg
            (setState { s with totalCalls := s.totalCalls + 1 } CircuitState.HALF_OPEN now)
            now op with ⟨-, hns, -⟩ | ⟨-, hns, -⟩
        · rw [hns] at hcl ⊢
          rw [onSuccess_closed_count cfg _ now hcl]
          omega
        · rw [hns] at hcl ⊢
          exact onFailure_closed_count cfg _ now hcl
      · have hrf : shouldAttemptReset cfg s now = false := by simpa using hr
        rw [execute_open_reject cfg s now op ho hrf] at hcl
        dsimp only at hcl
        rw [ho] at hcl
        cases hcl
    · rw [execute_not_open cfg s now op ho] at hcl ⊢
      rcases executeWithRetries_cases cfg { s with totalCalls := s.totalCalls + 1 }
          now op with ⟨-, hns, -⟩ | ⟨-, hns, -⟩
      · rw [hns] at hcl ⊢
        rw [onSuccess_closed_count cfg _ now hcl]
        omega
      · rw [hns] at hcl ⊢
        exact onFailure_closed_count cfg _ now hcl

/-- Claim C1 (amended): over reachable breaker states, (a) a call from
CLOSED opens the breaker exactly when it reports a failure that makes the
failure count reach the threshold; (b) from OPEN the breaker moves to
HALF_OPEN (before attempting the call) exactly when the elapsed time since
the last failure is at least `resetTimeout`, and otherwise stays OPEN
without running the operation; (c) from HALF_OPEN the breaker closes
exactly when the call succeeds and the consecutive-success count reaches
`successThreshold`; (d) a recorded failure while HALF_OPEN returns the
breaker to OPEN if and only if the incremented failure count reaches
`failureThreshold` (it stays HALF_OPEN when the monitoring-window cleanup
had reset the count below `failureThreshold - 1`). -/
theorem circuitBreaker_transitions (cfg : CircuitBreakerConfig) (s : BreakerState)
    (now : Int) (op : Nat → Option Unit) (hreach : Reachable cfg s)
    (h1 : 1 ≤ cfg.failureThreshold) (hw : 0 ≤ cfg.monitoringWindow) :
    (s.state = CircuitState.CLOSED →
      ((execute cfg s now op).newState.state = CircuitState.OPEN ↔
        (∀ a, a ≤ cfg.maxRetries → op a = none)
        ∧ s.failureCount + 1 = cfg.failureThreshold))
    ∧ (s.state = CircuitState.OPEN → ∀ f, s.lastFailureTime = some f →
        (shouldAttemptReset cfg s now = true ↔ cfg.resetTimeout ≤ now - f)
        ∧ (cfg.resetTimeout ≤ now - f →
            execute cfg s now op =
              executeWithRetries cfg
                (setState { s with totalCalls := s.totalCalls + 1 }
                  CircuitState.HALF_OPEN now) now op)
        ∧ (now - f < cfg.resetTimeout →
            (execute cfg s now op).newState.state = CircuitState.OPEN
            ∧ (execute cfg s now op).invocations = 0))
    ∧ (s.state = CircuitState.HALF_OPEN →
        ((execute cfg s now op).newState.state = CircuitState.CLOSED ↔
          (∃ a, a ≤ cfg.maxRetries ∧ op a ≠ none)
          ∧ cfg.successThreshold ≤ s.consecutiveSuccesses + 1))
    ∧ (s.state = CircuitState.HALF_OPEN → (∀ a, a ≤ cfg.maxRetries → op a = none) →
        ((execute cfg s now op).newState.state = CircuitState.OPEN ↔
          cfg.failureThreshold ≤ s.failureCount + 1)) := by
  refine ⟨?_, ?_, ?_, ?_⟩
  · intro hcl
    have hinv : s.failureCount < cfg.failureThreshold :=
      reachable_closed_count cfg s hreach h1 hcl
    rw [execute_not_open cfg s now op (by simp [hcl])]
    rcases executeWithRetries_cases cfg { s with totalCalls := s.totalCalls + 1 }
        now op with ⟨hex, hns, -⟩ | ⟨hall, hns, -⟩
    · rw [hns]
      have := onSuccess_closed cfg { s with totalCalls := s.totalCalls + 1 } now hcl
      constructor
      · intro hc; rw [this] at hc; cases hc
      · rintro ⟨hall, -⟩
        obtain ⟨a, ha, hne⟩ := hex
        exact absurd (hall a ha) hne
    · rw [hns]
      have hiff := onFailure_open_iff cfg { s with totalCalls := s.totalCalls + 1 } now hw
        (Or.inl hcl)
      dsimp only at hiff
      rw [hiff]
      constructor
      · intro hle; exact ⟨hall, by omega⟩
      · rintro ⟨-, he⟩; omega
  · intro ho f hf
    have hsr := shouldAttemptReset_some cfg s now f hf
    refine ⟨by rw [hsr]; simp, ?_, ?_⟩
    · intro hle
      exact execute_open_gate cfg s now op ho (by rw [hsr]; simpa using hle)
    · intro hlt
      have hrf : shouldAttemptReset cfg s now = false := by
        rw [hsr]; simpa using (by omega : ¬ cfg.resetTimeout ≤ now - f)
      rw [execute_open_reject cfg s now op ho hrf]
      exact ⟨ho, rfl⟩
  · intro hho
    rw [execute_not_open cfg s now op (by simp [hho])]
    rcases executeWithRetries_cases cfg { s with totalCalls := s.totalCalls + 1 }
        now op with ⟨hex, hns, -⟩ | ⟨hall, hns, -⟩
    · rw [hns]
      have hiff := onSuccess_halfopen_closed_iff cfg
        { s with totalCalls := s.totalCalls + 1 } now hho
      dsimp only at hiff
      rw [hiff]
      exact ⟨fun h => ⟨hex, h⟩, fun h => h.2⟩
    · rw [hns]
      constructor
      · intro hc
        have := onFailure_closed_of cfg _ now hc
        dsimp only at this
        rw [hho] at this
        cases this
      · rintro ⟨⟨a, ha, hne⟩, -⟩
        exact absurd (hall a ha) hne
  · intro hho hall
    rw [execute_not_open cfg s now op (by simp [hho])]
    rcases executeWithRetries_cases cfg { s with totalCalls := s.totalCalls + 1 }
        now op with ⟨hex, hns, -⟩ | ⟨-, hns, -⟩
    · obtain ⟨a, ha, hne⟩ := hex
      exact absurd (hall a ha) hne
    · rw [hns]
      have hiff := onFailure_open_iff cfg { s with totalCalls := s.totalCalls + 1 } now hw
        (Or.inr hho)
      dsimp only at hiff
      rw [hiff]

/-- Claim C1 witness: a fresh breaker in CLOSED does not open on a single
fully failing call (its failure count 1 is below the default threshold 5). -/
theorem circuitBreaker_transitions_witness :
    (execute defaultConfig (initialState 0) 0
        (fun _ => (none : Option Unit))).newState.state ≠ CircuitState.OPEN := by
  have h := (circuitBreaker_transitions defaultConfig (initialState 0) 0 (fun _ => none)
    (Reachable.init 0) (by decide) (by decide)).1 rfl
  intro hc
  exact absurd (h.mp hc).2 (by decide)

/-- One fully failing `execute` call against the default configuration. -/
def c1FailCall (s : BreakerState) (t : Int) : BreakerState :=
  (execute defaultConfig s t (fun _ => (none : Option Unit))).newState

/-- One succeeding `execute` call against the default configuration. -/
def c1OkCall (s : BreakerState) (t : Int) : BreakerState :=
  (execute defaultConfig s t (fun _ => some ())).newState

/-- Five failing calls open the breaker; a success at t = 300010 moves it to
HALF_OPEN and, the last failure now being outside the monitoring window,
resets the failure count to 0. -/
def c1TraceState : BreakerState :=
  c1OkCall (c1FailCall (c1FailCall (c1FailCall (c1FailCall
    (c1FailCall (initialState 0) 0) 1) 2) 3) 4) 300010

/-- Claim C1 counterexample: in the reachable state `c1TraceState` the
breaker is HALF_OPEN with failure count 0; a fully failing call records a
failure (`totalFailures` increments) yet the breaker stays HALF_OPEN
instead of returning to OPEN, contradicting the claim that every failure in
HALF_OPEN immediately transitions back to OPEN. -/
theorem circuitBreaker_halfopen_failure_counterexample :
    Reachable defaultConfig c1TraceState
    ∧ c1TraceState.state = CircuitState.HALF_OPEN
    ∧ c1TraceState.failureCount = 0
    ∧ (execute defaultConfig c1TraceState 300011
        (fun _ => (none : Option Unit))).success = false
    ∧ (execute defaultConfig c1TraceState 300011
        (fun _ => (none : Option Unit))).newState.totalFailures
      = c1TraceState.totalFailures + 1
    ∧ (execute defaultConfig c1TraceState 300011
        (fun _ => (none : Option Unit))).newState.state ≠ CircuitState.OPEN := by
  refine ⟨?_, by decide, by decide, by decide, by decide, by decide⟩
  show Reachable defaultConfig
    (c1OkCall (c1FailCall (c1FailCall (c1FailCall (c1FailCall
      (c1FailCall (initialState 0) 0) 1) 2) 3) 4) 300010)
  exact Reachable.step _ 300010 (fun _ => some ())
    (Reachable.step _ 4 (fun _ => none) (Reachable.step _ 3 (fun _ => none)
      (Reachable.step _ 2 (fun _ => none) (Reachable.step _ 1 (fun _ => none)
        (Reachable.step _ 0 (fun _ => none) (Reachable.init 0))))))

/-- One fully failing `execute` call, for the claim C4 scenario. -/
def c4FailCall (s : BreakerState) (t : Int) : BreakerState :=
  (execute defaultConfig s t (fun _ => (none : Option Unit))).newState

/-- The breaker state after five consecutive fully failing calls with the
default configuration (`failureThreshold = 5`): the circuit is OPEN. -/
def c4OpenState : BreakerState :=
  c4FailCall (c4FailCall (c4FailCall (c4FailCall
    (c4FailCall (initialState 0) 0) 1) 2) 3) 4

/-- Claim C4: a call made while the breaker is OPEN before the reset
timeout elapses fails immediately, never invokes the wrapped operation, and
changes nothing but the call counter; in particular five consecutive
failing executions with `failureThreshold = 5` open the breaker and a sixth
call before the timeout is rejected with zero operation invocations. -/
theorem execute_open_blocks (cfg : CircuitBreakerConfig) (s : BreakerState) (now : Int)
    (op : Nat → Option Unit) (f : Int) (hs : s.state = CircuitState.OPEN)
    (hf : s.lastFailureTime = some f) (ht : now - f < cfg.resetTimeout) :
    (execute cfg s now op).success = false
    ∧ (execute cfg s now op).invocations = 0
    ∧ (execute cfg s now op).data = none
    ∧ (execute cfg s now op).newState = { s with totalCalls := s.totalCalls + 1 }
    ∧ c4OpenState.state = CircuitState.OPEN
    ∧ (∀ op2 : Nat → Option Unit,
        (execute defaultConfig c4OpenState 5 op2).success = false
        ∧ (execute defaultConfig c4OpenState 5 op2).invocations = 0) := by
  have hrf : shouldAttemptReset cfg s now = false := by
    rw [shouldAttemptReset_some cfg s now f hf]
    simpa using (by omega : ¬ cfg.resetTimeout ≤ now - f)
  rw [execute_open_reject cfg s now op hs hrf]
  refine ⟨rfl, rfl, rfl, rfl, by decide, ?_⟩
  intro op2
  rw [execute_open_reject defaultConfig c4OpenState 5 op2 (by decide) (by decide)]
  exact ⟨rfl, rfl⟩

/-- Claim C4 witness: the sixth call against the opened default breaker at
t = 5 (1 ms after the last failure) is rejected. -/
theorem execute_open_blocks_witness :
    (execute defaultConfig c4OpenState 5 (fun _ => some ())).success = false :=
  (execute_open_blocks defaultConfig c4OpenState 5 (fun _ => some ()) 4 (by decide)
    (by decide) (by decide)).1

end CircuitBreaker

/-- Dynamically-typed JavaScript/JSON values as stored by the host editor
and handled by the query engine and the data parser (`any` in the source).
`undef` models JS `undefined` (e.g. a missing object property). -/
inductive JsValue where
  | undef
  | null
  | bool (b : Bool)
  | num (n : ℚ)
  | str (s : String)
  | arr (elements : List JsValue)
  | obj (fields : List (String × JsValue))

namespace SessionQueryEngine

/-- Query options of `SessionQueryEngine` (`limit`, `offset`,
`includeMetadata`); `none` models an absent optional field. -/
structure QueryOptions where
  limit : Option Nat
  offset : Option Nat
  includeMetadata : Bool
  deriving DecidableEq, Repr

/-- JS truthiness of `options.offset` / `options.limit`: absent and `0` are
falsy. -/
def natOptTruthy : Option Nat → Bool
  | none => false
  | some n => decide (n ≠ 0)

/-- The pagination record returned by `getInteractiveSessions`. -/
structure Pagination where
  offset : Nat
  limit : Nat
  total : Nat
  deriving DecidableEq, Repr

/-- The `data` payload of a successful `getInteractiveSessions` call.  The
optional metadata summary (serialized-size estimate and min/max creation
dates) is not modelled: no claim refers to it. -/
structure SessionQueryData (α : Type) where
  sessions : List α
  pagination : Pagination
  deriving DecidableEq, Repr

/-- Result shape of `SessionQueryEngine` operations. -/
structure SessionQueryResult (α : Type) where
  success : Bool
  data : Option (SessionQueryData α)
  error : Option String
  deriving DecidableEq, Repr

/-- JS `options.limit || len`: the length default applies when the limit is
absent or `0` (falsy). -/
def jsLimit (limit : Option Nat) (len : Nat) : Nat :=
  match limit with
  | some k => if k = 0 then len else k
  | none => len

/-- `queryInteractiveSessionsRaw`: the single key lookup.  The sqlite row
for the key `interactive.sessions` is the `row` input (`none` when absent)
and `JSON.parse` is the `jsonParse` parameter (`none` models a thrown parse
error); both are external to the repository.  A missing row or empty value
is an empty success; a parse failure or a non-array JSON value is an
error. -/
def queryInteractiveSessionsRaw (jsonParse : String → Option JsValue)
    (row : Option String) : Except String (List JsValue) :=
  match row with
  | none => Except.ok []
  | some value =>
    if value = "" then Except.ok []
    else
      match jsonParse value with
      | none => Except.error "Failed to parse session JSON data"
      | some sessions =>
        match sessions with
        | JsValue.arr xs => Except.ok xs
        | _ => Except.error "Interactive sessions data is not in expected array format"

/-- `getInteractiveSessions` after the connection and raw query steps: the
`raw` input is the combined outcome of `getCurrentWorkspaceConnection` and
`queryInteractiveSessionsRaw`.  Pagination is applied in memory only when
`offset` or `limit` is truthy; the reported `pagination.limit` uses the
post-slice length as in the source. -/
def getInteractiveSessions {α : Type} (raw : Except String (List α))
    (options : QueryOptions) : SessionQueryResult α :=
  match raw with
  | Except.error e => { success := false, data := none, error := some e }
  | Except.ok data =>
    let processedData :=
      if natOptTruthy options.offset || natOptTruthy options.limit then
        let offset := options.offset.getD 0
        let limit := jsLimit options.limit data.length
        (data.drop offset).take limit
      else data
    { success := true
      data := some
        { sessions := processedData
          pagination :=
            { offset := options.offset.getD 0
              limit := jsLimit options.limit processedData.length
              total := data.length } }
      error := none }

/-- Claim C2 (amended): a successful call returns `pagination.total` equal
to the full fetched array length and sessions equal to the in-memory slice
`[offset, offset + limit)` of the single fetched array whenever the limit
is positive, the full suffix from `offset` when the limit is absent — and
also when the limit is exactly 0, which is falsy and therefore treated as
unset: a call with `limit = 0` returns all sessions from the offset onward,
not zero sessions. -/
theorem getInteractiveSessions_pagination {α : Type} (data : List α)
    (options : QueryOptions) :
    (getInteractiveSessions (Except.ok data) options).success = true
    ∧ ∃ d, (getInteractiveSessions (Except.ok data) options).data = some d
        ∧ d.pagination.total = data.length
        ∧ (∀ l, options.limit = some l → 0 < l →
            d.sessions = (data.drop (options.offset.getD 0)).take l)
        ∧ (options.limit = none → d.sessions = data.drop (options.offset.getD 0))
        ∧ (options.limit = some 0 → d.sessions = data.drop (options.offset.getD 0)) := by
  obtain ⟨lim, off, inc⟩ := options
  refine ⟨rfl, ?_⟩
  refine ⟨_, rfl, rfl, ?_, ?_, ?_⟩
  · rintro l rfl hl
    have hne : l ≠ 0 := by omega
    simp [getInteractiveSessions, natOptTruthy, jsLimit, hne]
  · rintro rfl
    cases off with
    | none => simp [getInteractiveSessions, natOptTruthy, jsLimit]
    | some o =>
      by_cases ho : o = 0
      · subst ho; simp [getInteractiveSessions, natOptTruthy, jsLimit]
      · simp [getInteractiveSessions, natOptTruthy, jsLimit, ho,
          List.take_of_length_le (by simp : (data.drop o).length ≤ data.length)]
  · rintro rfl
    cases off with
    | none => simp [getInteractiveSessions, natOptTruthy, jsLimit]
    | some o =>
      by_cases ho : o = 0
      · subst ho; simp [getInteractiveSessions, natOptTruthy, jsLimit]
      · simp [getInteractiveSessions, natOptTruthy, jsLimit, ho,
          List.take_of_length_le (by simp : (data.drop o).length ≤ data.length)]

/-- Claim C2 witness: offset 1 and limit 2 over a three-element fetch yield
the slice `[20, 30]`. -/
theorem getInteractiveSessions_pagination_witness :
    ∃ d, (getInteractiveSessions (Except.ok [(10 : Nat), 20, 30])
        { limit := some 2, offset := some 1, includeMetadata := false }).data = some d
      ∧ d.sessions = [20, 30] := by
  obtain ⟨-, d, hd, -, hslice, -, -⟩ := getInteractiveSessions_pagination
    [(10 : Nat), 20, 30] { limit := some 2, offset := some 1, includeMetadata := false }
  exact ⟨d, hd, by simpa using hslice 2 rfl (by norm_num)⟩

/-- Claim C2 counterexample: with `limit = 0` (and no offset) the call
returns the full session list, not zero sessions, because `0` is falsy and
the pagination branch is skipped. -/
theorem getInteractiveSessions_limit_zero_counterexample :
    (getInteractiveSessions (Except.ok [(0 : Nat)])
        { limit := some 0, offset := none, includeMetadata := false }).data.map
      (fun d => d.sessions) = some [0]
    ∧ (getInteractiveSessions (Except.ok [(0 : Nat)])
        { limit := some 0, offset := none, includeMetadata := false }).data.map
      (fun d => d.sessions) ≠ some [] := by
  exact ⟨rfl, by decide⟩

/-- Claim C7: the raw session query returns an empty success for an absent
row and for a row with an empty value; a row whose text parses to a
non-array JSON value is a failure (distinct from the empty success), and so
is unparseable text. -/
theorem queryInteractiveSessionsRaw_spec (jsonParse : String → Option JsValue) :
    queryInteractiveSessionsRaw jsonParse none = Except.ok []
    ∧ queryInteractiveSessionsRaw jsonParse (some "") = Except.ok []
    ∧ (∀ s v, s ≠ "" → jsonParse s = some v → (∀ xs, v ≠ JsValue.arr xs) →
        queryInteractiveSessionsRaw jsonParse (some s) =
          Except.error "Interactive sessions data is not in expected array format")
    ∧ (∀ s, s ≠ "" → jsonParse s = none →
        queryInteractiveSessionsRaw jsonParse (some s) =
          Except.error "Failed to parse session JSON data") := by
  refine ⟨rfl, rfl, ?_, ?_⟩
  · intro s v hs hv hne
    unfold queryInteractiveSessionsRaw
    dsimp only
    rw [if_neg hs, hv]
    cases v with
    | arr xs => exact absurd rfl (hne xs)
    | undef => rfl
    | null => rfl
    | bool b => rfl
    | num n => rfl
    | str t => rfl
    | obj fs => rfl
  · intro s hs hn
    unfold queryInteractiveSessionsRaw
    dsimp only
    rw [if_neg hs, hn]

/-- Claim C7 witness: a concrete parse function sending `"x"` to the JSON
number 1 and everything else to a parse error. -/
theorem queryInteractiveSessionsRaw_spec_witness :
    queryInteractiveSessionsRaw
        (fun s => if s = "x" then some (JsValue.num 1) else none) (some "x")
      = Except.error "Interactive sessions data is not in expected array format"
    ∧ queryInteractiveSessionsRaw
        (fun s => if s = "x" then some (JsValue.num 1) else none) (some "y")
      = Except.error "Failed to parse session JSON data" := by
  constructor
  · exact (queryInteractiveSessionsRaw_spec _).2.2.1 "x" (JsValue.num 1) (by decide)
      (by simp) (fun xs h => by cases h)
  · exact (queryInteractiveSessionsRaw_spec _).2.2.2 "y" (by decide) (by simp)

end SessionQueryEngine

namespace SessionDataParser

/-- JS truthiness of a value (`!x` negated): `undefined`, `null`, `false`,
`0` and `""` are falsy; arrays and objects are always truthy. -/
def truthy : JsValue → Bool
  | JsValue.undef => false
  | JsValue.null => false
  | JsValue.bool b => b
  | JsValue.num n => decide (n ≠ 0)
  | JsValue.str s => decide (s ≠ "")
  | JsValue.arr _ => true
  | JsValue.obj _ => true

/-- JS `typeof x === 'object'`: true for `null`, arrays and plain objects. -/
def isObjectType : JsValue → Bool
  | JsValue.null => true
  | JsValue.arr _ => true
  | JsValue.obj _ => true
  | _ => false

/-- First binding of a key in an object's field list. -/
def lookupField : List (String × JsValue) → String → JsValue
  | [], _ => JsValue.undef
  | (k, v) :: rest, key => if k = key then v else lookupField rest key

/-- JS property access `x.key`: `undefined` for a missing key or a
non-object receiver (the source only accesses properties of values it has
checked to be truthy objects, or of values whose absence yields
`undefined`). -/
def getField (v : JsValue) (key : String) : JsValue :=
  match v with
  | JsValue.obj fields => lookupField fields key
  | _ => JsValue.undef

/-- JS strict string comparison `x === 's'` for a dynamic value. -/
def eqStr (v : JsValue) (s : String) : Bool :=
  match v with
  | JsValue.str t => decide (t = s)
  | _ => false

/-- The string content of a dynamic value known to be a string. -/
def roleString : JsValue → String
  | JsValue.str s => s
  | _ => ""

/-- `ChatMessage` as built by the parser: role string, content string and
optional numeric timestamp (milliseconds, a JS number). -/
structure ChatMessage where
  role : String
  content : String
  timestamp : Option ℚ
  deriving DecidableEq, Repr

/-- Per-session derived metadata (`SessionMetadata` of the parser file). -/
structure SessionMetadata where
  messageCount : Nat
  totalCharacters : Nat
  userMessageCount : Nat
  assistantMessageCount : Nat
  firstMessageTimestamp : Option ℚ
  lastMessageTimestamp : Option ℚ
  deriving DecidableEq, Repr

/-- `ParsedSession` as built by the parser (its `metadata` is always
computed, so the field is not optional here). -/
structure ParsedSession where
  id : String
  messages : List ChatMessage
  customTitle : Option String
  createdAt : Option String
  lastModified : Option String
  metadata : SessionMetadata
  deriving DecidableEq, Repr

/-- `ValidationOptions` with every field resolved (the source merges a
partial record over the defaults at construction). -/
structure ValidationOptions where
  strictMode : Bool
  allowEmptySessions : Bool
  validateTimestamps : Bool
  requireSessionId : Bool
  deriving DecidableEq, Repr

/-- `DEFAULT_VALIDATION_OPTIONS`. -/
def defaultValidationOptions : ValidationOptions :=
  { strictMode := true
    allowEmptySessions := false
    validateTimestamps := true
    requireSessionId := true }

/-- `ParsingStats` (wall-clock `processingTime` is not modelled). -/
structure ParsingStats where
  totalSessions : Nat
  validSessions : Nat
  invalidSessions : Nat
  totalMessages : Nat
  deriving DecidableEq, Repr

/-- `ParseResult`: `data` is the parsed session list (empty on failure),
`error` the failure message.  Warning lists are not modelled. -/
structure ParseResult where
  success : Bool
  data : List ParsedSession
  error : Option String
  stats : ParsingStats
  deriving DecidableEq, Repr

/-- `parseIndividualMessage`: a message must be a truthy object whose
`role` is exactly the string `user` or `assistant` and whose `content` is a
string; a `timestamp` is taken when numeric, parsed via `Date.parse`
(the `dateParse` parameter, `none` for `NaN`) when a string, and dropped
with a warning otherwise.  Timestamp plausibility checks only emit
warnings, which are not modelled, so the validation options do not affect
the result. -/
def parseIndividualMessage (dateParse : String → Option ℚ) (m : JsValue) :
    Option ChatMessage :=
  if truthy m && isObjectType m then
    let role := getField m "role"
    if truthy role && (eqStr role "user" || eqStr role "assistant") then
      match getField m "content" with
      | JsValue.str content =>
        let timestamp : Option ℚ :=
          match getField m "timestamp" with
          | JsValue.undef => none
          | JsValue.num n => some n
          | JsValue.str s => dateParse s
          | _ => none
        some { role := roleString role, content := content, timestamp := timestamp }
      | _ => none
    else none
  else none

/-- The message loop of `parseMessages`: strict mode fails on the first
invalid message, lenient mode skips it (with a warning, not modelled). -/
def parseMessageList (opts : ValidationOptions) (dateParse : String → Option ℚ) :
    List JsValue → Option (List ChatMessage)
  | [] => some []
  | m :: rest =>
    match parseIndividualMessage dateParse m with
    | some cm => (parseMessageList opts dateParse rest).map (fun l => cm :: l)
    | none =>
      if opts.strictMode then none
      else parseMessageList opts dateParse rest

/-- `parseMessages`: the messages value must be an array. -/
def parseMessages (opts : ValidationOptions) (dateParse : String → Option ℚ)
    (messagesData : JsValue) : Option (List ChatMessage) :=
  match messagesData with
  | JsValue.arr ms => parseMessageList opts dateParse ms
  | _ => none

/-- A truthy string-typed field (`x.key && typeof x.key === 'string'`). -/
def nonEmptyStrField (s : JsValue) (key : String) : Option String :=
  match getField s key with
  | JsValue.str v => if v = "" then none else some v
  | _ => none

/-- `extractSessionId`: `id`, then `sessionId`, then a generated id
(embedding `Date.now()`, the `now` parameter) only when ids are not
required. -/
def extractSessionId (opts : ValidationOptions) (now : Int) (sessionData : JsValue)
    (index : Nat) : Option String :=
  match nonEmptyStrField sessionData "id" with
  | some v => some v
  | none =>
    match nonEmptyStrField sessionData "sessionId" with
    | some v => some v
    | none =>
      if ¬ opts.requireSessionId then
        some ("generated_session_" ++ toString index ++ "_" ++ toString now)
      else none

/-- `extractCustomTitle`: `customTitle`, then `title`. -/
def extractCustomTitle (sessionData : JsValue) : Option String :=
  match nonEmptyStrField sessionData "customTitle" with
  | some v => some v
  | none => nonEmptyStrField sessionData "title"

/-- One of the two `parseTimestamps` fields: a truthy value that is a
string is kept verbatim, a number goes through `toISOString` (the `toISO`
parameter). -/
def jsTimeField (toISO : ℚ → String) (sessionData : JsValue) (key : String) :
    Option String :=
  let v := getField sessionData key
  if truthy v then
    match v with
    | JsValue.str x => some x
    | JsValue.num n => some (toISO n)
    | _ => none
  else none

/-- One iteration of the metadata loop of `calculateSessionMetadata`:
character count, per-role counters and truthiness-guarded min/max
timestamps (a stored `0` timestamp is falsy and gets overwritten). -/
def metadataStep (acc : SessionMetadata) (message : ChatMessage) : SessionMetadata :=
  let acc1 := { acc with totalCharacters := acc.totalCharacters + message.content.length }
  let acc2 :=
    if message.role = "user" then
      { acc1 with userMessageCount := acc1.userMessageCount + 1 }
    else if message.role = "assistant" then
      { acc1 with assistantMessageCount := acc1.assistantMessageCount + 1 }
    else acc1
  match message.timestamp with
  | some t =>
    if t ≠ 0 then
      let newFirst :=
        match acc2.firstMessageTimestamp with
        | none => some t
        | some f => if f = 0 ∨ t < f then some t else some f
      let newLast :=
        match acc2.lastMessageTimestamp with
        | none => some t
        | some f => if f = 0 ∨ f < t then some t else some f
      { acc2 with firstMessageTimestamp := newFirst, lastMessageTimestamp := newLast }
    else acc2
  | none => acc2

/-- `calculateSessionMetadata` of the parser. -/
def calculateSessionMetadata (messages : List ChatMessage) : SessionMetadata :=
  messages.foldl metadataStep
    { messageCount := messages.length
      totalCharacters := 0
      userMessageCount := 0
      assistantMessageCount := 0
      firstMessageTimestamp := none
      lastMessageTimestamp := none }

/-- `parseIndividualSession`: a truthy object, the id requirement, the
message list (`sessionData.messages || []`), the empty-session check,
timestamps, custom title and derived metadata. -/
def parseIndividualSession (opts : ValidationOptions) (now : Int)
    (dateParse : String → Option ℚ) (toISO : ℚ → String) (sessionData : JsValue)
    (index : Nat) : Option ParsedSession :=
  if truthy sessionData && isObjectType sessionData then
    let sessionId := extractSessionId opts now sessionData index
    if opts.requireSessionId && sessionId.isNone then none
    else
      let messagesField := getField sessionData "messages"
      let messagesInput := if truthy messagesField then messagesField else JsValue.arr []
      match parseMessages opts dateParse messagesInput with
      | none => none
      | some msgs =>
        if ¬ opts.allowEmptySessions && msgs.isEmpty then none
        else
          some { id := sessionId.getD ("session_" ++ toString index)
                 messages := msgs
                 customTitle := extractCustomTitle sessionData
                 createdAt := jsTimeField toISO sessionData "createdAt"
                 lastModified := jsTimeField toISO sessionData "lastModified"
                 metadata := calculateSessionMetadata msgs }
  else none

/-- The session loop of `parseSessionData`: collect valid sessions in order
and count the invalid ones. -/
def parseSessionsLoop (opts : ValidationOptions) (now : Int)
    (dateParse : String → Option ℚ) (toISO : ℚ → String) :
    List JsValue → Nat → List ParsedSession × Nat
  | [], _ => ([], 0)
  | x :: rest, i =>
    let r := parseSessionsLoop opts now dateParse toISO rest (i + 1)
    match parseIndividualSession opts now dateParse toISO x i with
    | some p => (p :: r.1, r.2)
    | none => (r.1, r.2 + 1)

/-- Empty `ParsingStats`. -/
def emptyStats : ParsingStats :=
  { totalSessions := 0, validSessions := 0, invalidSessions := 0, totalMessages := 0 }

/-- Shared tail of `parseSessionData` once the candidate array is known:
run the session loop, derive the stats, and succeed exactly when at least
one session parsed. -/
def parseSessionArray (opts : ValidationOptions) (now : Int)
    (dateParse : String → Option ℚ) (toISO : ℚ → String)
    (sessionsArray : List JsValue) : ParseResult :=
  let r := parseSessionsLoop opts now dateParse toISO sessionsArray 0
  let ok := decide (0 < r.1.length)
  { success := ok
    data := r.1
    error := if ok then none else some "No valid sessions could be parsed"
    stats :=
      { totalSessions := sessionsArray.length
        validSessions := r.1.length
        invalidSessions := r.2
        totalMessages := (r.1.map (fun s => s.messages.length)).sum } }

/-- `parseSessionData`: falsy input is an error, an array is parsed
entry-wise, a single object is wrapped as a one-element array (with a
warning, not modelled), anything else is a format error; overall success
requires at least one valid session. -/
def parseSessionData (opts : ValidationOptions) (now : Int)
    (dateParse : String → Option ℚ) (toISO : ℚ → String) (rawData : JsValue) :
    ParseResult :=
  if truthy rawData then
    match rawData with
    | JsValue.arr xs => parseSessionArray opts now dateParse toISO xs
    | JsValue.obj fields => parseSessionArray opts now dateParse toISO [JsValue.obj fields]
    | _ =>
      { success := false
        data := []
        error := some "Raw data is not in expected format (array or object)"
        stats := emptyStats }
  else
    { success := false
      data := []
      error := some "No data provided for parsing"
      stats := emptyStats }

lemma eqStr_true_iff (v : JsValue) (s : String) : eqStr v s = true ↔ v = JsValue.str s := by
  cases v <;> simp [eqStr]

lemma parseIndividualMessage_invalid_role (dateParse : String → Option ℚ) (m : JsValue)
    (h1 : getField m "role" ≠ JsValue.str "user")
    (h2 : getField m "role" ≠ JsValue.str "assistant") :
    parseIndividualMessage dateParse m = none := by
  have hu : eqStr (getField m "role") "user" = false := by
    rw [Bool.eq_false_iff]
    intro hc
    exact h1 ((eqStr_true_iff _ _).mp hc)
  have ha : eqStr (getField m "role") "assistant" = false := by
    rw [Bool.eq_false_iff]
    intro hc
    exact h2 ((eqStr_true_iff _ _).mp hc)
  simp [parseIndividualMessage, hu, ha]

lemma parseMessageList_strict_none (opts : ValidationOptions)
    (dateParse : String → Option ℚ) (ms : List JsValue) (m : JsValue)
    (hstrict : opts.strictMode = true) (hm : m ∈ ms)
    (hinv : parseIndividualMessage dateParse m = none) :
    parseMessageList opts dateParse ms = none := by
  induction ms with
  | nil => cases hm
  | cons x rest ih =>
    rcases List.mem_cons.mp hm with rfl | hm2
    · simp [parseMessageList, hinv, hstrict]
    · unfold parseMessageList
      cases hx : parseIndividualMessage dateParse x with
      | some cm => simp [ih hm2]
      | none => simp [hstrict]

lemma parseMessageList_lenient (opts : ValidationOptions)
    (dateParse : String → Option ℚ) (ms : List JsValue)
    (hl : opts.strictMode = false) :
    parseMessageList opts dateParse ms =
      some (ms.filterMap (parseIndividualMessage dateParse)) := by
  induction ms with
  | nil => rfl
  | cons x rest ih =>
    unfold parseMessageList
    cases hx : parseIndividualMessage dateParse x <;>
      simp [hx, hl, ih, List.filterMap_cons]

/-- Claim C8: (1) a message whose `role` is not exactly the string `user`
or `assistant` (for example `system`) is invalid — `parseIndividualMessage`
does not consult the strict/lenient option at all; (2) in strict mode an
invalid message in the `messages` array fails the whole containing session;
(3) in lenient mode the invalid message is skipped and the session still
parses (to the in-order valid messages) provided some other message is
valid and the session passes the object and id requirements. -/
theorem sessionDataParser_role_validation :
    (∀ (dateParse : String → Option ℚ) (m : JsValue),
        getField m "role" ≠ JsValue.str "user" →
        getField m "role" ≠ JsValue.str "assistant" →
        parseIndividualMessage dateParse m = none)
    ∧ (∀ (opts : ValidationOptions) (now : Int) (dateParse : String → Option ℚ)
        (toISO : ℚ → String) (s : JsValue) (i : Nat) (ms : List JsValue) (m : JsValue),
        opts.strictMode = true →
        getField s "messages" = JsValue.arr ms → m ∈ ms →
        getField m "role" ≠ JsValue.str "user" →
        getField m "role" ≠ JsValue.str "assistant" →
        parseIndividualSession opts now dateParse toISO s i = none)
    ∧ (∀ (opts : ValidationOptions) (now : Int) (dateParse : String → Option ℚ)
        (toISO : ℚ → String) (s : JsValue) (i : Nat) (ms : List JsValue)
        (m m2 : JsValue) (cm : ChatMessage),
        opts.strictMode = false →
        (truthy s && isObjectType s) = true →
        (opts.requireSessionId && (extractSessionId opts now s i).isNone) = false →
        getField s "messages" = JsValue.arr ms →
        m ∈ ms →
        getField m "role" ≠ JsValue.str "user" →
        getField m "role" ≠ JsValue.str "assistant" →
        m2 ∈ ms → parseIndividualMessage dateParse m2 = some cm →
        ∃ ps, parseIndividualSession opts now dateParse toISO s i = some ps
          ∧ ps.messages = ms.filterMap (parseIndividualMessage dateParse)) := by
  refine ⟨parseIndividualMessage_invalid_role, ?_, ?_⟩
  · intro opts now dateParse toISO s i ms m hstrict hmsgs hm h1 h2
    have hnone := parseMessageList_strict_none opts dateParse ms m hstrict hm
      (parseIndividualMessage_invalid_role dateParse m h1 h2)
    simp [parseIndividualSession, hmsgs, truthy, parseMessages, hnone]
  · intro opts now dateParse toISO s i ms m m2 cm hl hobj hid hmsgs hm h1 h2 hm2 hm2v
    have hlen := parseMessageList_lenient opts dateParse ms hl
    have hmem : cm ∈ ms.filterMap (parseIndividualMessage dateParse) :=
      List.mem_filterMap.mpr ⟨m2, hm2, hm2v⟩
    have hne : ms.filterMap (parseIndividualMessage dateParse) ≠ [] := by
      intro hc
      rw [hc] at hmem
      cases hmem
    have heq : parseIndividualSession opts now dateParse toISO s i
        = some { id := (extractSessionId opts now s i).getD ("session_" ++ toString i)
                 messages := ms.filterMap (parseIndividualMessage dateParse)
                 customTitle := extractCustomTitle s
                 createdAt := jsTimeField toISO s "createdAt"
                 lastModified := jsTimeField toISO s "lastModified"
                 metadata := calculateSessionMetadata
                   (ms.filterMap (parseIndividualMessage dateParse)) } := by
      have hsplit := hobj
      rw [Bool.and_eq_true] at hsplit
      simp [parseIndividualSession, parseMessages, hsplit.1, hsplit.2, hid, hmsgs, hlen,
        List.isEmpty_iff, hne, show truthy (JsValue.arr ms) = true from rfl]
    exact ⟨_, heq, rfl⟩

/-- A message with role `system`, for the claim C8 witness. -/
def c8SystemMessage : JsValue :=
  JsValue.obj [("role", JsValue.str "system"), ("content", JsValue.str "be brief")]

/-- A valid user message, for the claim C8 witness. -/
def c8UserMessage : JsValue :=
  JsValue.obj [("role", JsValue.str "user"), ("content", JsValue.str "ok")]

/-- A session holding the system message and one valid message, for the
claim C8 witness. -/
def c8Session : JsValue :=
  JsValue.obj [("id", JsValue.str "s"),
    ("messages", JsValue.arr [c8SystemMessage, c8UserMessage])]

/-- Claim C8 witness: the system message is invalid on its own, fails the
session in strict mode, and is skipped in lenient mode while the session
still parses thanks to the valid user message. -/
theorem sessionDataParser_role_validation_witness :
    parseIndividualMessage (fun _ => none) c8SystemMessage = none
    ∧ parseIndividualSession defaultValidationOptions 0 (fun _ => none) (fun _ => "")
        c8Session 0 = none
    ∧ ∃ ps, parseIndividualSession
          { strictMode := false, allowEmptySessions := false,
            validateTimestamps := true, requireSessionId := true }
          0 (fun _ => none) (fun _ => "") c8Session 0 = some ps
        ∧ ps.messages = [c8SystemMessage, c8UserMessage].filterMap
            (parseIndividualMessage (fun _ => none)) := by
  have h1 : getField c8SystemMessage "role" ≠ JsValue.str "user" := by
    intro h
    exact absurd (congrArg roleString h) (by decide)
  have h2 : getField c8SystemMessage "role" ≠ JsValue.str "assistant" := by
    intro h
    exact absurd (congrArg roleString h) (by decide)
  refine ⟨sessionDataParser_role_validation.1 (fun _ => none) c8SystemMessage h1 h2,
    ?_, ?_⟩
  · exact sessionDataParser_role_validation.2.1 defaultValidationOptions 0 (fun _ => none)
      (fun _ => "") c8Session 0 [c8SystemMessage, c8UserMessage] c8SystemMessage rfl rfl
      (by simp) h1 h2
  · exact sessionDataParser_role_validation.2.2
      { strictMode := false, allowEmptySessions := false,
        validateTimestamps := true, requireSessionId := true }
      0 (fun _ => none) (fun _ => "") c8Session 0 [c8SystemMessage, c8UserMessage]
      c8SystemMessage c8UserMessage { role := "user", content := "ok", timestamp := none }
      rfl rfl rfl rfl (by simp) h1 h2 (by simp) rfl

/-- The raw input of the claim C9 scenario:
`[{"id":"s1","messages":[{"role":"user","content":"hi"},{"role":"assistant","content":"hello"}]}]`. -/
def c9Raw : JsValue :=
  JsValue.arr [JsValue.obj
    [("id", JsValue.str "s1"),
     ("messages", JsValue.arr
       [JsValue.obj [("role", JsValue.str "user"), ("content", JsValue.str "hi")],
        JsValue.obj [("role", JsValue.str "assistant"), ("content", JsValue.str "hello")]])]]

/-- Claim C9: the scenario input parses, under the default options, to
exactly one session with id `s1`, the two messages in order, and derived
metadata with messageCount 2, userMessageCount 1 and assistantMessageCount
1 (and 7 total characters). -/
theorem parseSessionData_scenario (dateParse : String → Option ℚ) (toISO : ℚ → String) :
    (parseSessionData defaultValidationOptions 0 dateParse toISO c9Raw).success = true
    ∧ (parseSessionData defaultValidationOptions 0 dateParse toISO c9Raw).data =
      [{ id := "s1"
         messages := [{ role := "user", content := "hi", timestamp := none },
                      { role := "assistant", content := "hello", timestamp := none }]
         customTitle := none
         createdAt := none
         lastModified := none
         metadata := { messageCount := 2, totalCharacters := 7,
                       userMessageCount := 1, assistantMessageCount := 1,
                       firstMessageTimestamp := none,
                       lastMessageTimestamp := none } }]
    ∧ (parseSessionData defaultValidationOptions 0 dateParse toISO c9Raw).stats =
      { totalSessions := 1, validSessions := 1, invalidSessions := 0, totalMessages := 2 } :=
  ⟨rfl, rfl, rfl⟩

lemma parseSessionArray_success_nonempty (opts : ValidationOptions) (now : Int)
    (dateParse : String → Option ℚ) (toISO : ℚ → String) (xs : List JsValue)
    (hs : (parseSessionArray opts now dateParse toISO xs).success = true) :
    (parseSessionArray opts now dateParse toISO xs).data ≠ [] := by
  unfold parseSessionArray at hs ⊢
  dsimp only at hs ⊢
  simp only [decide_eq_true_eq] at hs
  exact List.ne_nil_of_length_pos hs

lemma parseSessionData_success_nonempty (opts : ValidationOptions) (now : Int)
    (dateParse : String → Option ℚ) (toISO : ℚ → String) (raw : JsValue)
    (hs : (parseSessionData opts now dateParse toISO raw).success = true) :
    (parseSessionData opts now dateParse toISO raw).data ≠ [] := by
  unfold parseSessionData at hs ⊢
  by_cases ht : truthy raw = true
  · rw [if_pos ht] at hs ⊢
    cases raw <;> first
      | exact parseSessionArray_success_nonempty opts now dateParse toISO _ hs
      | simp at hs
  · rw [if_neg ht] at hs ⊢
    simp at hs

end SessionDataParser

namespace DatabaseReader

/-- `DatabaseReaderConfig` with the defaults merged in. -/
structure DatabaseReaderConfig where
  enableCircuitBreaker : Bool
  strictParsing : Bool
  cacheConnections : Bool
  deriving DecidableEq, Repr

/-- The default reader configuration (all three flags on). -/
def defaultReaderConfig : DatabaseReaderConfig :=
  { enableCircuitBreaker := true, strictParsing := true, cacheConnections := true }

/-- The validation options the reader constructs its parser with:
`strictMode` follows `strictParsing` and ids are not required. -/
def readerParserOptions (cfg : DatabaseReaderConfig) : SessionDataParser.ValidationOptions :=
  { strictMode := cfg.strictParsing
    allowEmptySessions := false
    validateTimestamps := true
    requireSessionId := false }

/-- `DatabaseReaderResult`: `totalSessions` is the `metadata.totalSessions`
field, `breakerState` the optional `metadata.circuitBreakerState`
(wall-clock `processingTime` is not modelled). -/
structure DatabaseReaderResult where
  success : Bool
  sessions : Option (List SessionDataParser.ParsedSession)
  error : Option String
  totalSessions : Nat
  breakerState : Option CircuitBreaker.CircuitState
  deriving DecidableEq, Repr

/-- JS `o || d` for an optional error string (an empty string is falsy). -/
def jsStrOr (o : Option String) (d : String) : String :=
  match o with
  | some s => if s = "" then d else s
  | none => d

/-- `getSessionsInternal`: query (with metadata requested), then parse
`queryResult.data?.sessions || []`; the `queryRaw` input is the combined
outcome of the connection and raw-lookup steps as in
`SessionQueryEngine.getInteractiveSessions`. -/
def getSessionsInternal (cfg : DatabaseReaderConfig) (now : Int)
    (dateParse : String → Option ℚ) (toISO : ℚ → String)
    (queryRaw : Except String (List JsValue)) : DatabaseReaderResult :=
  let queryResult := SessionQueryEngine.getInteractiveSessions queryRaw
    { limit := none, offset := none, includeMetadata := true }
  if queryResult.success = false then
    { success := false
      sessions := none
      error := some (jsStrOr queryResult.error "Failed to query sessions")
      totalSessions := 0
      breakerState := none }
  else
    let sessionsJson :=
      match queryResult.data with
      | some d => d.sessions
      | none => []
    let parseResult := SessionDataParser.parseSessionData (readerParserOptions cfg) now
      dateParse toISO (JsValue.arr sessionsJson)
    if parseResult.success = false then
      { success := false
        sessions := none
        error := some (jsStrOr parseResult.error "Failed to parse sessions")
        totalSessions := 0
        breakerState := none }
    else
      { success := true
        sessions := some parseResult.data
        error := none
        totalSessions := parseResult.data.length
        breakerState := none }

/-- `getSessions`: when the circuit breaker is enabled the internal
operation runs under `execute`; the operation always resolves (it returns a
result value rather than throwing), so `circuitResult.success` reflects
only the breaker, not the inner `success` flag.  Returns the public result
together with the breaker state after the call. -/
def getSessions (cfg : DatabaseReaderConfig) (bs : CircuitBreaker.BreakerState)
    (now : Int) (dateParse : String → Option ℚ) (toISO : ℚ → String)
    (queryRaw : Except String (List JsValue)) :
    DatabaseReaderResult × CircuitBreaker.BreakerState :=
  if cfg.enableCircuitBreaker then
    let circuitResult := CircuitBreaker.execute CircuitBreaker.defaultConfig bs now
      (fun _ => some (getSessionsInternal cfg now dateParse toISO queryRaw))
    ({ success := circuitResult.success
       sessions :=
         match circuitResult.data with
         | some r => r.sessions
         | none => none
       error := circuitResult.error
       totalSessions :=
         match circuitResult.data with
         | some r =>
           match r.sessions with
           | some l => l.length
           | none => 0
         | none => 0
       breakerState := some circuitResult.newState.state },
     circuitResult.newState)
  else (getSessionsInternal cfg now dateParse toISO queryRaw, bs)

/-- The failure value produced by the empty-store pipeline. -/
def emptyFailureResult : DatabaseReaderResult :=
  { success := false
    sessions := none
    error := some "No valid sessions could be parsed"
    totalSessions := 0
    breakerState := none }

/-- Claim C10 (amended): a successful query yielding an empty session array
makes `getSessionsInternal` fail with the parser's `No valid sessions could
be parsed` error, and `getSessions` propagates that failure when the
circuit breaker is disabled; the internal pipeline never succeeds with an
empty list.  With the breaker enabled (the default), however, `execute`
counts the resolving operation as a success, so the public `getSessions`
reports `success = true` with no sessions array. -/
theorem databaseReader_empty_sessions (cfg : DatabaseReaderConfig)
    (bs : CircuitBreaker.BreakerState) (now : Int)
    (dateParse : String → Option ℚ) (toISO : ℚ → String) :
    getSessionsInternal cfg now dateParse toISO (Except.ok []) = emptyFailureResult
    ∧ (cfg.enableCircuitBreaker = false →
        getSessions cfg bs now dateParse toISO (Except.ok []) = (emptyFailureResult, bs))
    ∧ (∀ queryRaw, (getSessionsInternal cfg now dateParse toISO queryRaw).success = true →
        ∃ l, (getSessionsInternal cfg now dateParse toISO queryRaw).sessions = some l
          ∧ l ≠ [])
    ∧ (cfg.enableCircuitBreaker = true → bs.state ≠ CircuitBreaker.CircuitState.OPEN →
        (getSessions cfg bs now dateParse toISO (Except.ok [])).1.success = true
        ∧ (getSessions cfg bs now dateParse toISO (Except.ok [])).1.sessions = none) := by
  refine ⟨rfl, ?_, ?_, ?_⟩
  · intro hcb
    simp only [getSessions, hcb, Bool.false_eq_true, if_false]
    rfl
  · intro queryRaw hs
    unfold getSessionsInternal at hs ⊢
    dsimp only at hs ⊢
    by_cases hq : (SessionQueryEngine.getInteractiveSessions queryRaw
        { limit := none, offset := none, includeMetadata := true } :
        SessionQueryEngine.SessionQueryResult JsValue).success = false
    · rw [if_pos hq] at hs
      cases hs
    · rw [if_neg hq] at hs ⊢
      by_cases hp : (SessionDataParser.parseSessionData (readerParserOptions cfg) now
          dateParse toISO (JsValue.arr
            (match (SessionQueryEngine.getInteractiveSessions queryRaw
              { limit := none, offset := none, includeMetadata := true } :
              SessionQueryEngine.SessionQueryResult JsValue).data with
             | some d => d.sessions
             | none => []))).success = false
      · rw [if_pos hp] at hs
        cases hs
      · rw [if_neg hp] at hs ⊢
        refine ⟨_, rfl, ?_⟩
        exact SessionDataParser.parseSessionData_success_nonempty _ _ _ _ _
          (by simpa using hp)
  · intro hcb hbs
    simp only [getSessions, hcb, if_true]
    rw [CircuitBreaker.execute_not_open CircuitBreaker.defaultConfig bs now _ hbs]
    exact ⟨rfl, rfl⟩

/-- The reader configuration with the circuit breaker disabled, for the
claim C10 witness. -/
def noBreakerConfig : DatabaseReaderConfig :=
  { enableCircuitBreaker := false, strictParsing := true, cacheConnections := true }

/-- Claim C10 witness: with the breaker disabled, a reader over an empty
store returns the failure result unchanged. -/
theorem databaseReader_empty_sessions_witness :
    getSessions noBreakerConfig (CircuitBreaker.initialState 0) 0 (fun _ => none)
      (fun _ => "") (Except.ok []) = (emptyFailureResult, CircuitBreaker.initialState 0) :=
  (databaseReader_empty_sessions noBreakerConfig
    (CircuitBreaker.initialState 0) 0 (fun _ => none) (fun _ => "")).2.1 rfl

/-- Claim C10 counterexample: with the default configuration (breaker
enabled) over an empty store, the internal pipeline fails but the public
`getSessions` reports `success = true` with no sessions list — it does not
return the claimed failure result. -/
theorem databaseReader_breaker_swallows_failure :
    (getSessionsInternal defaultReaderConfig 0 (fun _ => none) (fun _ => "")
        (Except.ok [])).success = false
    ∧ (getSessions defaultReaderConfig (CircuitBreaker.initialState 0) 0 (fun _ => none)
        (fun _ => "") (Except.ok [])).1.success = true
    ∧ (getSessions defaultReaderConfig (CircuitBreaker.initialState 0) 0 (fun _ => none)
        (fun _ => "") (Except.ok [])).1.sessions = none :=
  ⟨rfl, rfl, rfl⟩

end DatabaseReader

namespace WorkspaceResolver

/-- ASCII model of JS `String.prototype.toLowerCase` (an external library
call): map `A`–`Z` to `a`–`z`, leave everything else unchanged. -/
def toLowerChar (c : Char) : Char :=
  if h : 65 ≤ c.toNat ∧ c.toNat ≤ 90 then
    Char.ofNatAux (c.toNat + 32) (Or.inl (by omega))
  else c

/-- Split a character list on `/` (the component decomposition performed by
`path.resolve` for a POSIX path). -/
def splitPath : List Char → List (List Char)
  | [] => [[]]
  | c :: rest =>
    if c = '/' then [] :: splitPath rest
    else
      match splitPath rest with
      | [] => [[c]]
      | comp :: more => (c :: comp) :: more

/-- Normalisation of path components as done by `path.resolve` on an
absolute path: empty components and `.` are dropped, `..` pops the stack
(staying at the root when empty). -/
def normComps : List (List Char) → List (List Char) → List (List Char)
  | stack, [] => stack.reverse
  | stack, comp :: rest =>
    if comp = [] ∨ comp = ['.'] then normComps stack rest
    else if comp = ['.', '.'] then normComps stack.tail rest
    else normComps (comp :: stack) rest

/-- Re-join path components with `/`. -/
def joinComps : List (List Char) → List Char
  | [] => []
  | [comp] => comp
  | comp :: rest => comp ++ '/' :: joinComps rest

/-- Model of Node's `path.resolve` for an absolute POSIX input: split on
`/`, normalise `.`/`..`/empty components, re-join under a leading `/`
(in particular trailing separators are removed). -/
def resolveAbs (p : List Char) : List Char :=
  '/' :: joinComps (normComps [] (splitPath p))

/-- Strip every trailing `/` — the notion of "differs only by a trailing
separator" used by the specification. -/
def dropTrailingSlashes (p : List Char) : List Char :=
  (p.reverse.dropWhile (fun c => decide (c = '/'))).reverse

/-- UTF-8 encoding of a scalar value, as `hash.update` applies to a JS
string. -/
def utf8EncodeChar (c : Char) : List Nat :=
  let n := c.toNat
  if n < 128 then [n]
  else if n < 2048 then [192 + n / 64, 128 + n % 64]
  else if n < 65536 then [224 + n / 4096, 128 + n / 64 % 64, 128 + n % 64]
  else [240 + n / 262144, 128 + n / 4096 % 64, 128 + n / 64 % 64, 128 + n % 64]

/-- UTF-8 encoding of a character list. -/
def utf8Encode (cs : List Char) : List Nat :=
  cs.flatMap utf8EncodeChar

/-- Reduction modulo 2^32, the word size of the MD5 state. -/
def m32 (n : Nat) : Nat := n % 4294967296

/-- 32-bit modular addition. -/
def addw (a b : Nat) : Nat := m32 (a + b)

/-- 32-bit complement. -/
def notw (x : Nat) : Nat := 4294967295 - m32 x

/-- 32-bit left rotation. -/
def rotl (x s : Nat) : Nat := m32 (x * 2 ^ s) ||| (m32 x / 2 ^ (32 - s))

/-- MD5 round function F. -/
def fF (b c d : Nat) : Nat := (b &&& c) ||| (notw b &&& d)

/-- MD5 round function G. -/
def fG (b c d : Nat) : Nat := (b &&& d) ||| (c &&& notw d)

/-- MD5 round function H. -/
def fH (b c d : Nat) : Nat := b ^^^ c ^^^ d

/-- MD5 round function I. -/
def fI (b c d : Nat) : Nat := c ^^^ (b ||| notw d)

/-- The MD5 sine-derived constants `K[0..63]`. -/
def kTable : List Nat :=
  [3614090360, 3905402710, 606105819, 3250441966, 4118548399, 1200080426,
   2821735955, 4249261313, 1770035416, 2336552879, 4294925233, 2304563134,
   1804603682, 4254626195, 2792965006, 1236535329, 4129170786, 3225465664,
   643717713, 3921069994, 3593408605, 38016083, 3634488961, 3889429448,
   568446438, 3275163606, 4107603335, 1163531501, 2850285829, 4243563512,
   1735328473, 2368359562, 4294588738, 2272392833, 1839030562, 4259657740,
   2763975236, 1272893353, 4139469664, 3200236656, 681279174, 3936430074,
   3572445317, 76029189, 3654602809, 3873151461, 530742520, 3299628645,
   4096336452, 1126891415, 2878612391, 4237533241, 1700485571, 2399980690,
   4293915773, 2240044497, 1873313359, 4264355552, 2734768916, 1309151649,
   4149444226, 3174756917, 718787259, 3951481745]

/-- The MD5 per-round shift amounts `s[0..63]`. -/
def sTable : List Nat :=
  [7, 12, 17, 22, 7, 12, 17, 22, 7, 12, 17, 22, 7, 12, 17, 22,
   5, 9, 14, 20, 5, 9, 14, 20, 5, 9, 14, 20, 5, 9, 14, 20,
   4, 11, 16, 23, 4, 11, 16, 23, 4, 11, 16, 23, 4, 11, 16, 23,
   6, 10, 15, 21, 6, 10, 15, 21, 6, 10, 15, 21, 6, 10, 15, 21]

/-- Little-endian 32-bit word `j` of a 64-byte block. -/
def leWord (block : List Nat) (j : Nat) : Nat :=
  block.getD (4 * j) 0 + 256 * block.getD (4 * j + 1) 0
    + 65536 * block.getD (4 * j + 2) 0 + 16777216 * block.getD (4 * j + 3) 0

/-- One MD5 round on the rolling `(a, b, c, d)` state. -/
def md5Round (block : List Nat) (st : Nat × Nat × Nat × Nat) (i : Nat) :
    Nat × Nat × Nat × Nat :=
  let a := st.1
  let b := st.2.1
  let c := st.2.2.1
  let d := st.2.2.2
  let f :=
    if i < 16 then fF b c d
    else if i < 32 then fG b c d
    else if i < 48 then fH b c d
    else fI b c d
  let g :=
    if i < 16 then i
    else if i < 32 then (5 * i + 1) % 16
    else if i < 48 then (3 * i + 5) % 16
    else (7 * i) % 16
  let tmp := m32 (a + f + kTable.getD i 0 + leWord block g)
  (d, addw b (rotl tmp (sTable.getD i 0)), b, c)

/-- The four MD5 chaining words. -/
structure MD5State where
  a : Nat
  b : Nat
  c : Nat
  d : Nat
  deriving DecidableEq, Repr

/-- Process one 64-byte block: 64 rounds, then add into the chaining
state. -/
def md5ProcessBlock (st : MD5State) (block : List Nat) : MD5State :=
  let r := (List.range 64).foldl (md5Round block) (st.a, st.b, st.c, st.d)
  { a := addw st.a r.1, b := addw st.b r.2.1, c := addw st.c r.2.2.1, d := addw st.d r.2.2.2 }

/-- The `k` low-order bytes of a number, little-endian. -/
def toLEBytes : Nat → Nat → List Nat
  | 0, _ => []
  | k + 1, n => n % 256 :: toLEBytes k (n / 256)

/-- MD5 padding: append `0x80`, zero-pad to 56 mod 64, append the 64-bit
little-endian bit length. -/
def padMsg (bytes : List Nat) : List Nat :=
  let len := bytes.length
  let zeros := (64 + 56 - ((len + 1) % 64)) % 64
  bytes ++ [128] ++ List.replicate zeros 0
    ++ toLEBytes 8 ((len * 8) % 18446744073709551616)

/-- Split a byte list into 64-byte chunks. -/
def chunks64 : List Nat → List (List Nat)
  | [] => []
  | x :: xs => List.take 64 (x :: xs) :: chunks64 (xs.drop 63)
  termination_by l => l.length
  decreasing_by
    simp only [List.length_drop, List.length_cons]
    omega

/-- The MD5 initial chaining state. -/
def initMD5State : MD5State :=
  { a := 1732584193, b := 4023233417, c := 2562383102, d := 271733878 }

/-- The 16-byte MD5 digest of a byte list. -/
def md5Digest (bytes : List Nat) : List Nat :=
  let final := (chunks64 (padMsg bytes)).foldl md5ProcessBlock initMD5State
  toLEBytes 4 final.a ++ toLEBytes 4 final.b ++ toLEBytes 4 final.c ++ toLEBytes 4 final.d

/-- The lowercase hexadecimal digit characters. -/
def hexDigitChar (n : Nat) : Char :=
  "0123456789abcdef".data.getD n '0'

/-- Two lowercase hex digits of a byte (digest bytes are below 256, so the
inner `% 16` on the high digit is the identity; it keeps the character-set
proof self-contained). -/
def byteToHex (b : Nat) : List Char :=
  [hexDigitChar (b / 16 % 16), hexDigitChar (b % 16)]

/-- `digest('hex')`: the 32 lowercase hex characters of an MD5 digest. -/
def md5Hex (bytes : List Nat) : List Char :=
  (md5Digest bytes).flatMap byteToHex

/-- `generateWorkspaceId`: resolve the path, lowercase it, and take the
first 32 hex characters of its MD5 (the full digest, since an MD5 hex
digest has exactly 32 characters). -/
def generateWorkspaceId (workspacePath : String) : String :=
  let normalizedPath := (resolveAbs workspacePath.data).map toLowerChar
  String.mk ((md5Hex (utf8Encode normalizedPath)).take 32)

lemma toLowerChar_eq_iff (x : Char) (hx : x.toNat < 65) (c : Char) :
    toLowerChar c = x ↔ c = x := by
  unfold toLowerChar
  split
  · rename_i h
    constructor
    · intro hc
      have hn := congrArg Char.toNat hc
      rw [show (Char.ofNatAux (c.toNat + 32) (Or.inl (by omega))).toNat = c.toNat + 32
        from rfl] at hn
      omega
    · intro hc
      subst hc
      omega
  · exact Iff.rfl

lemma splitPath_ne_nil (p : List Char) : splitPath p ≠ [] := by
  induction p with
  | nil => simp [splitPath]
  | cons c rest ih =>
    unfold splitPath
    split
    · simp
    · cases hsp : splitPath rest with
      | nil => simp
      | cons comp more => simp

lemma splitPath_map (f : Char → Char) (hs : ∀ c, f c = '/' ↔ c = '/') (p : List Char) :
    splitPath (p.map f) = (splitPath p).map (List.map f) := by
  induction p with
  | nil => rfl
  | cons c rest ih =>
    simp only [List.map_cons, splitPath]
    by_cases hc : c = '/'
    · rw [if_pos ((hs c).mpr hc), if_pos hc, ih]
      rfl
    · rw [if_neg (fun h => hc ((hs c).mp h)), if_neg hc, ih]
      cases hsp : splitPath rest with
      | nil => exact absurd hsp (splitPath_ne_nil rest)
      | cons comp more => simp

lemma map_eq_singleton_iff (f : Char → Char) (x : Char)
    (hx : ∀ c, f c = x ↔ c = x) (comp : List Char) :
    comp.map f = [x] ↔ comp = [x] := by
  cases comp with
  | nil => simp
  | cons c t =>
    cases t with
    | nil => simp [hx c]
    | cons c2 t2 => simp

lemma map_eq_pair_iff (f : Char → Char) (x : Char)
    (hx : ∀ c, f c = x ↔ c = x) (comp : List Char) :
    comp.map f = [x, x] ↔ comp = [x, x] := by
  cases comp with
  | nil => simp
  | cons c t =>
    cases t with
    | nil => simp
    | cons c2 t2 =>
      cases t2 with
      | nil => simp [hx c, hx c2]
      | cons c3 t3 => simp

lemma normComps_map (f : Char → Char) (hd : ∀ c, f c = '.' ↔ c = '.') :
    ∀ (comps stack : List (List Char)),
      normComps (stack.map (List.map f)) (comps.map (List.map f)) =
        (normComps stack comps).map (List.map f) := by
  intro comps
  induction comps with
  | nil => intro stack; simp [normComps, List.map_reverse]
  | cons comp rest ih =>
    intro stack
    simp only [List.map_cons, normComps]
    by_cases h1 : comp = [] ∨ comp = ['.']
    · have h1f : comp.map f = [] ∨ comp.map f = ['.'] := by
        rcases h1 with h | h
        · subst h; simp
        · subst h; simp [(hd '.').mpr rfl]
      rw [if_pos h1f, if_pos h1, ih]
    · have h1f : ¬ (comp.map f = [] ∨ comp.map f = ['.']) := by
        rintro (h | h)
        · exact h1 (Or.inl (List.map_eq_nil_iff.mp h))
        · exact h1 (Or.inr ((map_eq_singleton_iff f '.' hd comp).mp h))
      rw [if_neg h1f, if_neg h1]
      by_cases h2 : comp = ['.', '.']
      · rw [if_pos ((map_eq_pair_iff f '.' hd comp).mpr h2), if_pos h2,
          ← List.map_tail, ih]
      · rw [if_neg (fun h => h2 ((map_eq_pair_iff f '.' hd comp).mp h)), if_neg h2,
          ← List.map_cons, ih]

lemma joinComps_map (f : Char → Char) (hs1 : f '/' = '/') :
    ∀ comps : List (List Char),
      joinComps (comps.map (List.map f)) = (joinComps comps).map f := by
  intro comps
  induction comps with
  | nil => rfl
  | cons comp rest ih =>
    cases rest with
    | nil => rfl
    | cons c2 t =>
      simp only [List.map_cons, joinComps] at ih ⊢
      rw [ih]
      simp [hs1]

lemma resolveAbs_map (f : Char → Char) (hs : ∀ c, f c = '/' ↔ c = '/')
    (hd : ∀ c, f c = '.' ↔ c = '.') (p : List Char) :
    resolveAbs (p.map f) = (resolveAbs p).map f := by
  unfold resolveAbs
  rw [splitPath_map f hs,
    show ([] : List (List Char)) = ([] : List (List Char)).map (List.map f) from rfl,
    normComps_map f hd, joinComps_map f ((hs '/').mpr rfl)]
  simp [(hs '/').mpr rfl]

lemma splitPath_append_slash (p : List Char) :
    splitPath (p ++ ['/']) = splitPath p ++ [[]] := by
  induction p with
  | nil => rfl
  | cons c rest ih =>
    simp only [List.cons_append, splitPath, List.append_eq]
    by_cases hc : c = '/'
    · rw [if_pos hc, if_pos hc, ih]
      rfl
    · rw [if_neg hc, if_neg hc, ih]
      cases hsp : splitPath rest with
      | nil => exact absurd hsp (splitPath_ne_nil rest)
      | cons comp more => simp

lemma normComps_append_empty :
    ∀ (comps stack : List (List Char)),
      normComps stack (comps ++ [[]]) = normComps stack comps := by
  intro comps
  induction comps with
  | nil => intro stack; simp [normComps]
  | cons comp rest ih =>
    intro stack
    simp only [List.cons_append, normComps]
    split
    · exact ih stack
    · split
      · exact ih stack.tail
      · exact ih (comp :: stack)

lemma resolveAbs_append_slash (p : List Char) : resolveAbs (p ++ ['/']) = resolveAbs p := by
  unfold resolveAbs
  rw [splitPath_append_slash, normComps_append_empty]

lemma resolveAbs_replicate (q : List Char) (k : Nat) :
    resolveAbs (q ++ List.replicate k '/') = resolveAbs q := by
  induction k with
  | zero => simp
  | succ n ihn =>
    rw [List.replicate_succ', ← List.append_assoc, resolveAbs_append_slash, ihn]

lemma resolveAbs_dropTrailingSlashes (p : List Char) :
    resolveAbs (dropTrailingSlashes p) = resolveAbs p := by
  have h1 : (p.reverse.takeWhile (fun c => decide (c = '/'))).reverse =
      List.replicate (p.reverse.takeWhile (fun c => decide (c = '/'))).length '/' := by
    rw [List.eq_replicate_iff]
    constructor
    · simp
    · intro b hb
      rw [List.mem_reverse] at hb
      have := List.mem_takeWhile_imp hb
      simpa using this
  have hdec : p = dropTrailingSlashes p ++
      List.replicate (p.reverse.takeWhile (fun c => decide (c = '/'))).length '/' := by
    conv_lhs => rw [← List.reverse_reverse p,
      ← List.takeWhile_append_dropWhile (p := fun c => decide (c = '/')) (l := p.reverse)]
    rw [List.reverse_append, ← h1]
    rfl
  conv_rhs => rw [hdec, resolveAbs_replicate]

lemma dropTrailingSlashes_map (f : Char → Char) (hs : ∀ c, f c = '/' ↔ c = '/')
    (p : List Char) :
    dropTrailingSlashes (p.map f) = (dropTrailingSlashes p).map f := by
  have hfun : ((fun c => decide (c = '/')) ∘ f) = (fun c => decide (c = '/')) := by
    funext c
    simp [hs c]
  unfold dropTrailingSlashes
  rw [← List.map_reverse, List.dropWhile_map, hfun, ← List.map_reverse]

lemma toLEBytes_length (k n : Nat) : (toLEBytes k n).length = k := by
  induction k generalizing n with
  | zero => rfl
  | succ m ih => simp [toLEBytes, ih]

lemma md5Digest_length (bytes : List Nat) : (md5Digest bytes).length = 16 := by
  unfold md5Digest
  simp [toLEBytes_length]

lemma flatMap_byteToHex_length (l : List Nat) :
    (l.flatMap byteToHex).length = 2 * l.length := by
  induction l with
  | nil => rfl
  | cons b rest ih =>
    simp [List.flatMap_cons, byteToHex, ih]
    omega

lemma md5Hex_length (bytes : List Nat) : (md5Hex bytes).length = 32 := by
  unfold md5Hex
  rw [flatMap_byteToHex_length, md5Digest_length]

lemma hexDigitChar_mem (n : Nat) : hexDigitChar n ∈ "0123456789abcdef".data := by
  unfold hexDigitChar
  by_cases h : n < "0123456789abcdef".data.length
  · rw [List.getD_eq_getElem _ _ h]
    exact List.getElem_mem h
  · rw [List.getD_eq_default _ _ (by omega)]
    decide

lemma md5Hex_mem (bytes : List Nat) (c : Char) (hc : c ∈ md5Hex bytes) :
    c ∈ "0123456789abcdef".data := by
  unfold md5Hex at hc
  obtain ⟨b, -, hb⟩ := List.mem_flatMap.mp hc
  unfold byteToHex at hb
  simp only [List.mem_cons, List.not_mem_nil, or_false] at hb
  rcases hb with h | h
  · exact h ▸ hexDigitChar_mem _
  · exact h ▸ hexDigitChar_mem _

lemma generateWorkspaceId_key (p : List Char) :
    (resolveAbs p).map toLowerChar =
      resolveAbs ((dropTrailingSlashes p).map toLowerChar) := by
  have hs : ∀ c, toLowerChar c = '/' ↔ c = '/' := toLowerChar_eq_iff '/' (by decide)
  have hd : ∀ c, toLowerChar c = '.' ↔ c = '.' := toLowerChar_eq_iff '.' (by decide)
  rw [← resolveAbs_map toLowerChar hs hd p, ← resolveAbs_dropTrailingSlashes (p.map toLowerChar),
    dropTrailingSlashes_map toLowerChar hs p]

/-- Claim C6: `generateWorkspaceId` is a deterministic pure function of the
canonicalized lowercase absolute path — two absolute paths that agree after
lowercasing and dropping trailing separators get the same id, repeated
calls agree trivially, and the id is always a 32-character string of
lowercase hexadecimal digits. -/
theorem generateWorkspaceId_spec (p1 p2 : String)
    (h1 : p1.data.head? = some '/') (h2 : p2.data.head? = some '/')
    (hcs : (dropTrailingSlashes p1.data).map toLowerChar =
      (dropTrailingSlashes p2.data).map toLowerChar) :
    generateWorkspaceId p1 = generateWorkspaceId p2
    ∧ generateWorkspaceId p1 = generateWorkspaceId p1
    ∧ (generateWorkspaceId p1).length = 32
    ∧ (∀ c ∈ (generateWorkspaceId p1).data, c ∈ "0123456789abcdef".data) := by
  refine ⟨?_, rfl, ?_, ?_⟩
  · unfold generateWorkspaceId
    rw [generateWorkspaceId_key p1.data, generateWorkspaceId_key p2.data, hcs]
  · unfold generateWorkspaceId
    show (List.take 32 (md5Hex (utf8Encode ((resolveAbs p1.data).map toLowerChar)))).length = 32
    rw [List.length_take, md5Hex_length]
    simp
  · intro c hc
    unfold generateWorkspaceId at hc
    replace hc : c ∈ List.take 32 (md5Hex (utf8Encode ((resolveAbs p1.data).map toLowerChar))) := hc
    exact md5Hex_mem _ c (List.mem_of_mem_take hc)

/-- Claim C6 witness: `/Tmp/WS` and `/tmp/ws/` differ only by case and a
trailing separator and receive the same 32-character id. -/
theorem generateWorkspaceId_spec_witness :
    generateWorkspaceId "/Tmp/WS" = generateWorkspaceId "/tmp/ws/"
    ∧ (generateWorkspaceId "/Tmp/WS").length = 32 :=
  have h := generateWorkspaceId_spec "/Tmp/WS" "/tmp/ws/" (by decide) (by decide) (by decide)
  ⟨h.1, h.2.2.1⟩

end WorkspaceResolver

end Socrates
